import Mathlib

/-!
Verification of the ESP32 NVS partition decoder (`nvs_read.py`) and the
CSV encoder (`generate_nvs_csv.py`).

The binary format is modelled over byte lists (`List Nat`, one element per
byte).  Python slicing, `struct.unpack`, `bytes.rstrip`, `str.decode`,
`bytes.hex` and `bytes.fromhex` are embedded as explicit list functions.
Exceptions in the source are modelled with `Option`: a decoding step that
would raise returns `none` and the surrounding loop reacts exactly as the
`except` handlers in the source do.
-/

/-- Python slice `l[a:b]` over a byte list. -/
def pySlice (l : List Nat) (a b : Nat) : List Nat := (l.drop a).take (b - a)

/-- Little-endian value of a byte list (`struct.unpack` core). -/
def leBytes : List Nat → Nat
  | [] => 0
  | b :: rest => b + 256 * leBytes rest

/-- `struct.unpack` of an unsigned little-endian integer of width `w` from the
front of `data`; fails (exception) when fewer than `w` bytes are available. -/
def unpackU (w : Nat) (data : List Nat) : Option Nat :=
  if (data.take w).length = w then some (leBytes (data.take w)) else none

/-- `struct.unpack` of a signed little-endian integer of width `w`. -/
def unpackI (w : Nat) (data : List Nat) : Option Int :=
  (unpackU w data).map (fun n =>
    if n < 2 ^ (8 * w - 1) then (n : Int) else (n : Int) - 2 ^ (8 * w))

/-- `bytes.rstrip(b'\x00')`: drop trailing zero bytes. -/
def rstrip0 (l : List Nat) : List Nat :=
  (l.reverse.dropWhile (fun b => b == 0)).reverse

/-- `.decode('ascii', errors='ignore')`: non-ASCII bytes are dropped. -/
def asciiIgnore (l : List Nat) : String :=
  String.mk ((l.filter (fun b => decide (b < 128))).map Char.ofNat)

/-- One lowercase hexadecimal digit. -/
def hexDigitChar (d : Nat) : Char :=
  if d < 10 then Char.ofNat (48 + d) else Char.ofNat (87 + d)

/-- `bytes.hex()`: lowercase hexadecimal rendering of a byte list. -/
def hexLower (l : List Nat) : String :=
  String.mk (l.flatMap (fun b => [hexDigitChar (b / 16), hexDigitChar (b % 16)]))

/-- The NVS entry type codes (`nvs_types` table in `nvs_read.py`). -/
inductive NvsType
  | U8 | I8 | U16 | I16 | U32 | I32 | U64 | I64
  | STR | BLOB | BLOB_DATA | BLOB_IDX | ANY
deriving DecidableEq

/-- The `nvs_types` dictionary: type code byte to type, unknown codes absent. -/
def nvs_types (c : Nat) : Option NvsType :=
  if c = 0x01 then some .U8 else if c = 0x11 then some .I8
  else if c = 0x02 then some .U16 else if c = 0x12 then some .I16
  else if c = 0x04 then some .U32 else if c = 0x14 then some .I32
  else if c = 0x08 then some .U64 else if c = 0x18 then some .I64
  else if c = 0x21 then some .STR else if c = 0x41 then some .BLOB
  else if c = 0x42 then some .BLOB_DATA else if c = 0x48 then some .BLOB_IDX
  else if c = 0xFF then some .ANY else none

/-- The decoded value attached to an entry: a Python int, a Python str
(ASCII text or lowercase hex), or the `BLOB_IDX` triple dict. -/
inductive NvsValue
  | intVal (n : Int)
  | strVal (s : String)
  | blobIdxVal (size chunkCount chunkStart : Nat)
deriving DecidableEq

/-- One decoded entry (`entry_data` dict in `parse_nvs_entries`). -/
structure NvsEntry where
  key : String
  type : NvsType
  nsName : String
  span : Nat
  chunkIndex : Nat
  value : NvsValue
  size : Option Nat
deriving DecidableEq

/-- The running namespace table (`namespaces` dict): insertion-ordered
id-to-name pairs with at most one pair per id. -/
abbrev NsTable := List (Nat × String)

/-- Python `namespaces.get(k)`. -/
def nsGet (t : NsTable) (k : Nat) : Option String :=
  (t.find? (fun p => p.1 == k)).map Prod.snd

/-- Python `namespaces[k] = v`: replace in place or append. -/
def nsSet (t : NsTable) (k : Nat) (v : String) : NsTable :=
  if t.any (fun p => p.1 == k) then
    t.map (fun p => if p.1 == k then (k, v) else p)
  else t ++ [(k, v)]

/-- Entry record constructor (the `entry_data` dict fields). -/
def mkEntry (key : String) (t : NvsType) (nm : String) (span chunk : Nat)
    (v : NvsValue) (sz : Option Nat) : NvsEntry :=
  ⟨key, t, nm, span, chunk, v, sz⟩

/-- The continuation-slot collection loop of the `STR`/`BLOB`/`BLOB_DATA`
branch: starting at slot `j` collect `cnt` raw slots, stopping early at slot
index 126 (`if i + x >= 126: break`), failing (`IndexError`) when a needed
slot is missing from the buffer. -/
def collectChunks (entries : List (List Nat)) : Nat → Nat → Option (List (List Nat))
  | _, 0 => some []
  | j, cnt + 1 =>
    if 126 ≤ j then some []
    else
      match entries[j]? with
      | none => none
      | some s => (collectChunks entries (j + 1) cnt).map (fun tl => s :: tl)

/-- The slots `entries[i+1] .. entries[i+span-1]` (present-slot view used to
state what `collectChunks` returns on an in-bounds read). -/
def followSlots (entries : List (List Nat)) (i span : Nat) : List (List Nat) :=
  (List.range' (i + 1) (span - 1)).map (fun k => entries.getD k [])

/-- One iteration of the `while i < 126` loop of `parse_nvs_entries`:
given the slot buffer, the decoded 2-bit state codes, the namespace table and
the current index, return the produced entry (if any), the updated table, and
the amount the index advances. All exception paths return `(none, ns, 1)`. -/
def parseStep (entries : List (List Nat)) (bitmap : List Nat) (ns : NsTable)
    (i : Nat) : Option NvsEntry × NsTable × Nat :=
  match bitmap[i]? with
  | none => (none, ns, 1)
  | some st =>
    if st = 2 then
      match entries[i]? with
      | none => (none, ns, 1)
      | some entry =>
        match entry[0]?, entry[1]?, entry[2]?, entry[3]? with
        | some entry_ns, some entry_type, some entry_span, some chunk_index =>
          match nvs_types entry_type with
          | none => (none, ns, 1)
          | some t =>
            if entry_span < 1 ∨ 126 - i < entry_span then (none, ns, 1)
            else
              let key := asciiIgnore (rstrip0 (pySlice entry 8 24))
              let nm := (nsGet ns entry_ns).getD ("NS_" ++ toString entry_ns)
              let data := entry.drop 24
              match t with
              | .U8 =>
                match unpackU 1 data with
                | none => (none, ns, 1)
                | some v =>
                  let ns' := if entry_ns = 0 then nsSet ns v key else ns
                  (some (mkEntry key t nm entry_span chunk_index (.intVal v) none),
                    ns', entry_span)
              | .I8 =>
                match unpackI 1 data with
                | none => (none, ns, 1)
                | some v =>
                  (some (mkEntry key t nm entry_span chunk_index (.intVal v) none),
                    ns, entry_span)
              | .U16 =>
                match unpackU 2 data with
                | none => (none, ns, 1)
                | some v =>
                  (some (mkEntry key t nm entry_span chunk_index (.intVal v) none),
                    ns, entry_span)
              | .I16 =>
                match unpackI 2 data with
                | none => (none, ns, 1)
                | some v =>
                  (some (mkEntry key t nm entry_span chunk_index (.intVal v) none),
                    ns, entry_span)
              | .U32 =>
                match unpackU 4 data with
                | none => (none, ns, 1)
                | some v =>
                  (some (mkEntry key t nm entry_span chunk_index (.intVal v) none),
                    ns, entry_span)
              | .I32 =>
                match unpackI 4 data with
                | none => (none, ns, 1)
                | some v =>
                  (some (mkEntry key t nm entry_span chunk_index (.intVal v) none),
                    ns, entry_span)
              | .U64 =>
                match unpackU 8 data with
                | none => (none, ns, 1)
                | some v =>
                  (some (mkEntry key t nm entry_span chunk_index (.intVal v) none),
                    ns, entry_span)
              | .I64 =>
                match unpackI 8 data with
                | none => (none, ns, 1)
                | some v =>
                  (some (mkEntry key t nm entry_span chunk_index (.intVal v) none),
                    ns, entry_span)
              | .STR | .BLOB | .BLOB_DATA =>
                match unpackU 2 data with
                | none => (none, ns, 1)
                | some size =>
                  if 4032 < size then (none, ns, entry_span)
                  else
                    match collectChunks entries (i + 1) (entry_span - 1) with
                    | none => (none, ns, 1)
                    | some chunks =>
                      let combined := (data.drop 8 ++ chunks.flatten).take size
                      let v := if t = .STR then asciiIgnore combined
                               else hexLower combined
                      (some (mkEntry key t nm entry_span chunk_index
                          (.strVal v) (some size)), ns, entry_span)
              | .BLOB_IDX =>
                match unpackU 4 data, unpackU 1 (data.drop 5),
                    unpackU 1 (data.drop 6) with
                | some sz, some cc, some cs =>
                  (some (mkEntry key t nm entry_span chunk_index
                      (.blobIdxVal sz cc cs) none), ns, entry_span)
                | _, _, _ => (none, ns, 1)
              | .ANY => (none, ns, 1)
        | _, _, _, _ => (none, ns, 1)
    else (none, ns, 1)

/-- The `while i < 126` loop of `parse_nvs_entries`, with explicit fuel.
Each iteration consumes one unit of fuel; since every iteration advances the
index by at least one slot (`parseStep_adv_pos`), fuel `126` is exact. -/
def parseLoop (entries : List (List Nat)) (bitmap : List Nat) :
    Nat → NsTable → Nat → List NvsEntry × NsTable
  | 0, ns, _ => ([], ns)
  | fuel + 1, ns, i =>
    if i < 126 then
      let r := parseStep entries bitmap ns i
      let rest := parseLoop entries bitmap fuel r.2.1 (i + r.2.2)
      (r.1.toList ++ rest.1, rest.2)
    else ([], ns)

/-- `parse_nvs_entries`: decode all written slots of one page, returning the
entry list and the updated namespace table. -/
def parse_nvs_entries (entries : List (List Nat)) (bitmap : List Nat)
    (ns : NsTable) : List NvsEntry × NsTable :=
  parseLoop entries bitmap 126 ns 0

/-- Decode the 32-byte entry-state bitmap into 126 two-bit codes:
for slot `n`, bit position `2n`, byte `2n / 8`, code
`(byte >> (6 - 2n % 8)) & 3`. Only invoked on full 32-byte bitmaps. -/
def bitmapDecode (bm : List Nat) : List Nat :=
  (List.range 126).map (fun n => (bm.getD (2 * n / 8) 0 >>> (6 - 2 * n % 8)) &&& 3)

/-- The raw 4-byte little-endian page-state word at file offset `pos`. -/
def pageStateRaw (file : List Nat) (pos : Nat) : Nat :=
  leBytes (pySlice file pos (pos + 4))

/-- Process one 4096-byte page at offset `pos` of `file` (the body of the
`while sector_pos < file_len` loop of `read_nvs_pages`):
a short header read (`struct.unpack` / indexing raising) or a page state
other than ACTIVE (`0xFFFFFFFE`) / FULL (`0xFFFFFFFC`) yields no entries and
leaves the namespace table unchanged; otherwise the bitmap is decoded, the
complete 32-byte slots are collected (a short slot read truncates the list),
and `parse_nvs_entries` runs. -/
def processPage (file : List Nat) (ns : NsTable) (pos : Nat) :
    List NvsEntry × NsTable :=
  if file.length < pos + 32 then ([], ns)
  else if pageStateRaw file pos ≠ 0xFFFFFFFE ∧ pageStateRaw file pos ≠ 0xFFFFFFFC
    then ([], ns)
  else if file.length < pos + 64 then ([], ns)
  else
    let bitmap := bitmapDecode (pySlice file (pos + 32) (pos + 64))
    let numSlots := min 126 ((file.length - (pos + 64)) / 32)
    let entries := (List.range numSlots).map
      (fun k => pySlice file (pos + 64 + 32 * k) (pos + 64 + 32 * k + 32))
    parse_nvs_entries entries bitmap ns

/-- The page scan loop of `read_nvs_pages` with explicit fuel: one page per
4096-byte stride, always advancing exactly one stride. -/
def readPagesLoop (file : List Nat) :
    Nat → NsTable → Nat → List NvsEntry × NsTable
  | 0, ns, _ => ([], ns)
  | fuel + 1, ns, pos =>
    if pos < file.length then
      let page := processPage file ns pos
      let rest := readPagesLoop file fuel page.2 (pos + 4096)
      (page.1 ++ rest.1, rest.2)
    else ([], ns)

/-- `read_nvs_pages`: scan the whole file from offset 0 at stride 4096 with
the namespace table seeded with id 0 mapped to "System".  The fuel
`file.length / 4096 + 1` covers every stride the source loop can perform. -/
def read_nvs_pages (file : List Nat) : List NvsEntry × NsTable :=
  readPagesLoop file (file.length / 4096 + 1) [(0, "System")] 0

/-! ### The CSV encoder (`generate_nvs_csv.py`) -/

/-- A row of the generated CSV.  A file row carries the reassembled blob
bytes that `write_blob_file` persists (the uniquely named path itself is
abstracted away); `none` models `bytes.fromhex` raising on a non-hex value. -/
inductive CsvRow
  | header
  | nsRow (name : String)
  | fileRow (key : String) (blob : Option (List Nat))
  | dataRow (key : String) (enc : String) (value : String)
deriving DecidableEq

/-- `map_type_encoding`: the fixed type-to-encoding dictionary; `BLOB_IDX`
is mapped to `None` explicitly and `STR`/`BLOB`/`ANY` are simply absent, so
`dict.get` returns `None` for all four. -/
def map_type_encoding : NvsType → Option String
  | .U8 => some "u8"
  | .I8 => some "i8"
  | .U16 => some "u16"
  | .I16 => some "i16"
  | .U32 => some "u32"
  | .I32 => some "i32"
  | .U64 => some "u64"
  | .I64 => some "i64"
  | .BLOB_DATA => some "binary"
  | _ => none

/-- Rendering of the encoding field into the f-string: Python prints the
value `None` as the literal text "None". -/
def encStr (o : Option String) : String := o.getD "None"

/-- Python `str(value)` / `json.dumps(value)` as used for the CSV value
field: dict values are rendered in JSON form, scalars via `str`. -/
def pyStr : NvsValue → String
  | .intVal n => toString n
  | .strVal s => s
  | .blobIdxVal s c st =>
    "\x7b\"size\": " ++ toString s ++ ", \"chunk_count\": " ++ toString c ++
      ", \"chunk_start\": " ++ toString st ++ "\x7d"

/-- The str value handed to `bytes.fromhex`; non-str values raise
`TypeError` (`none`). -/
def hexSource : NvsValue → Option String
  | .strVal s => some s
  | _ => none

/-- Value of one hexadecimal digit character, upper or lower case. -/
def hexDigitVal (c : Char) : Option Nat :=
  if 48 ≤ c.toNat ∧ c.toNat ≤ 57 then some (c.toNat - 48)
  else if 97 ≤ c.toNat ∧ c.toNat ≤ 102 then some (c.toNat - 87)
  else if 65 ≤ c.toNat ∧ c.toNat ≤ 70 then some (c.toNat - 55)
  else none

/-- Decode a hex string two digits at a time (`bytes.fromhex`); odd length
or a non-hex character raises `ValueError` (`none`). -/
def hexPairs : List Char → Option (List Nat)
  | [] => some []
  | [_] => none
  | c1 :: c2 :: rest =>
    match hexDigitVal c1, hexDigitVal c2, hexPairs rest with
    | some h, some l, some tl => some ((16 * h + l) :: tl)
    | _, _, _ => none

/-- `bytes.fromhex` on a string. -/
def hexDecode (s : String) : Option (List Nat) := hexPairs s.data

/-- Sequence a list of optional results; the first failure aborts
(the first raising `bytes.fromhex` call aborts `write_blob_file`). -/
def optList {α : Type} : List (Option α) → Option (List α)
  | [] => some []
  | none :: _ => none
  | some a :: rest => (optList rest).map (fun tl => a :: tl)

/-- Comparison by numeric key, as `key=lambda x: x[0]` / `int(x[0])`. -/
def keyLe {α : Type} (a b : Nat × α) : Prop := a.1 ≤ b.1

instance {α : Type} : DecidableRel (@keyLe α) := fun a b => Nat.decLe a.1 b.1

instance {α : Type} : IsTotal (Nat × α) keyLe := ⟨fun a b => Nat.le_total a.1 b.1⟩

instance {α : Type} : IsTrans (Nat × α) keyLe := ⟨fun _ _ _ h1 h2 => Nat.le_trans h1 h2⟩

/-- Reassemble one blob key group: stable-sort the `(chunk_index, value)`
pairs ascending by chunk index (`blob_entries.sort(key=lambda x: x[0])` -
Python `sort` is stable, as is insertion sort), then concatenate the
hex-decoded chunk values (`write_blob_file`). -/
def reassembleBlob (group : List (Nat × NvsValue)) : Option (List Nat) :=
  ((List.insertionSort keyLe group).map
      (fun c => (hexSource c.2).bind hexDecode) |> optList).map List.flatten

/-- `sorted(namespace_map.items(), key=lambda x: int(x[0]))`. -/
def sortNamespaces (m : List (Nat × String)) : List (Nat × String) :=
  List.insertionSort keyLe m

/-- The per-namespace entry grouping `entries_by_namespace` looked up at one
namespace name (`entries_by_namespace.get(ns_name, [])`). -/
def entriesForNs (entries : List NvsEntry) (name : String) : List NvsEntry :=
  entries.filter (fun e => e.nsName == name)

/-- First-occurrence deduplication, as Python dict keys accumulate. -/
def dedupFirstAux (seen : List String) : List String → List String
  | [] => []
  | k :: rest =>
    if k ∈ seen then dedupFirstAux seen rest
    else k :: dedupFirstAux (k :: seen) rest

/-- Keys of `blob_data_by_key` in first-occurrence order. -/
def dedupFirst (l : List String) : List String := dedupFirstAux [] l

/-- The `(chunk_index, value)` pairs collected for one blob key. -/
def blobGroup (l : List NvsEntry) (k : String) : List (Nat × NvsValue) :=
  l.filterMap (fun e =>
    if e.type = .BLOB_DATA ∧ e.key = k then some (e.chunkIndex, e.value) else none)

/-- The rows emitted for one namespace: the namespace row, then one file row
per blob key group, then one data row per remaining non-`BLOB_DATA`,
non-`BLOB_IDX` entry. -/
def nsSection (entries : List NvsEntry) (name : String) : List CsvRow :=
  let group := entriesForNs entries name
  let bkeys := dedupFirst ((group.filter (fun e => e.type == NvsType.BLOB_DATA)).map
    (fun e => e.key))
  let blobRows := bkeys.map (fun k => CsvRow.fileRow k (reassembleBlob (blobGroup group k)))
  let dataRows := (group.filter (fun e =>
      !(e.type == NvsType.BLOB_DATA) && !(e.type == NvsType.BLOB_IDX))).map
    (fun e => CsvRow.dataRow e.key (encStr (map_type_encoding e.type)) (pyStr e.value))
  CsvRow.nsRow name :: (blobRows ++ dataRows)

/-- `generate_csv`: the header row, then for every namespace of the record's
table sorted ascending by numeric id, that namespace's section. -/
def generate_csv (m : List (Nat × String)) (entries : List NvsEntry) : List CsvRow :=
  CsvRow.header :: (sortNamespaces m).flatMap (fun p => nsSection entries p.2)

/-- The namespace-row names of a row list, in order. -/
def nsRowsOf (rows : List CsvRow) : List String :=
  rows.filterMap (fun r => match r with | CsvRow.nsRow n => some n | _ => none)

/-! ### Concrete fixtures used by witnesses and counterexamples -/

/-- Pad (or cut) a byte list to exactly `n` bytes with trailing zeros. -/
def padTo (n : Nat) (l : List Nat) : List Nat :=
  l.take n ++ List.replicate (n - l.length) 0

/-- Build one raw 32-byte slot: namespace id, type code, span, chunk index,
4 reserved bytes, 16 key bytes (NUL-padded), 8 value bytes. -/
def mkSlot (ns t span chunk : Nat) (key : List Nat) (data : List Nat) : List Nat :=
  [ns, t, span, chunk] ++ [0, 0, 0, 0] ++ padTo 16 key ++ padTo 8 data

/-- A written STR slot with span 2 whose declared size field is 5000. -/
def c1Entries : List (List Nat) :=
  [mkSlot 1 0x21 2 0 [107] [0x88, 0x13], padTo 32 []]

def c1Bitmap : List Nat := [2, 2]

/-- Three U8 slots: one referencing namespace 5 before its definition, the
definition of namespace 5 as "cfg" inside namespace 0, and one referencing
namespace 5 after it. -/
def c2Entries : List (List Nat) :=
  [mkSlot 5 0x01 1 0 [97] [7],
   mkSlot 0 0x01 1 0 [99, 102, 103] [5],
   mkSlot 5 0x01 1 0 [98] [9]]

def c2Bitmap : List Nat := [2, 2, 2] ++ List.replicate 123 0

/-- A written STR slot with span 2, declared size 2, key "greeting", whose
continuation slot starts with the bytes of "hixy". -/
def c3Entries : List (List Nat) :=
  [mkSlot 5 0x21 2 0 [103, 114, 101, 101, 116, 105, 110, 103] [2, 0],
   padTo 32 [104, 105, 120, 121]]

def c3Bitmap : List Nat := [2]

/-- A written U8 slot whose span byte is 0. -/
def c4Entries : List (List Nat) := [mkSlot 1 0x01 0 0 [107] [7]]

def c4Bitmap : List Nat := [2]

/-- A 65-byte file whose single (truncated) page has state `0xFFFFFFFF`
(EMPTY). -/
def c5File : List Nat := List.replicate 65 255

/-- A written BLOB_IDX slot (type code 0x48). -/
def c8Slots : List (List Nat) := [mkSlot 1 0x48 1 0 [107] [16, 0, 0, 0, 0, 3, 1, 0]]

def c8Bitmap : List Nat := [2]

/-- A 96-byte file holding one ACTIVE page with a single written BLOB_IDX
slot. -/
def c8File : List Nat :=
  [0xFE, 0xFF, 0xFF, 0xFF] ++ [0, 0, 0, 0] ++ [0xFF] ++ List.replicate 19 0 ++
    [0, 0, 0, 0] ++ ([0x80] ++ List.replicate 31 0) ++
    mkSlot 1 0x48 1 0 [107] [16, 0, 0, 0, 0, 3, 1, 0]

/-- The entry decoded from `c8File`. -/
def c8Entry : NvsEntry :=
  ⟨"k", NvsType.BLOB_IDX, "NS_1", 1, 0, NvsValue.blobIdxVal 16 3 1, none⟩

/-- A record whose only entry names a namespace ("Foo") that the namespace
table does not hold. -/
def c10Map : List (Nat × String) := [(0, "System")]

def c10Entries : List NvsEntry :=
  [⟨"greeting", NvsType.STR, "Foo", 1, 0, NvsValue.strVal "hi", some 2⟩]

/-- A record where the STR entry's namespace name is held by the table. -/
def c10wMap : List (Nat × String) := [(1, "Foo")]

def c10wEntries : List NvsEntry :=
  [⟨"greeting", NvsType.STR, "Foo", 1, 0, NvsValue.strVal "hi", some 2⟩]

/-! ### Helper lemmas -/

/-- Every path of one loop iteration advances the slot index by at least 1:
all skip and exception paths advance by exactly 1, and the success and
oversized-size paths advance by the span, which passed `1 <= span`. -/
theorem parseStep_adv_pos (entries : List (List Nat)) (bitmap : List Nat)
    (ns : NsTable) (i : Nat) : 1 ≤ (parseStep entries bitmap ns i).2.2 := by
  unfold parseStep
  repeat' split
  all_goals try simp_all
  all_goals repeat' split
  all_goals try simp_all
  all_goals omega

/-- The fueled loop is fuel-independent once the fuel covers the remaining
slots: the loop exits through `i < 126` turning false, never by exhaustion. -/
theorem parseLoop_stable (entries : List (List Nat)) (bitmap : List Nat) :
    ∀ f1 f2 ns i, 126 - i ≤ f1 → 126 - i ≤ f2 →
      parseLoop entries bitmap f1 ns i = parseLoop entries bitmap f2 ns i := by
  intro f1
  induction f1 with
  | zero =>
    intro f2 ns i h1 _
    cases f2 with
    | zero => rfl
    | succ g =>
      simp only [parseLoop]
      rw [if_neg (by omega)]
  | succ f ih =>
    intro f2 ns i h1 h2
    cases f2 with
    | zero =>
      simp only [parseLoop]
      rw [if_neg (by omega)]
    | succ g =>
      simp only [parseLoop]
      by_cases hi : i < 126
      · rw [if_pos hi, if_pos hi]
        have hadv := parseStep_adv_pos entries bitmap ns i
        rw [ih g _ _ (by omega) (by omega)]
      · rw [if_neg hi, if_neg hi]

/-- `collectChunks` succeeds and returns exactly the listed slots whenever
the requested range stays below slot 126 and inside the buffer. -/
theorem collectChunks_eq (entries : List (List Nat)) :
    ∀ cnt j, j + cnt ≤ 126 → j + cnt ≤ entries.length →
      collectChunks entries j cnt =
        some ((List.range' j cnt).map (fun k => entries.getD k [])) := by
  intro cnt
  induction cnt with
  | zero => intro j _ _; simp [collectChunks]
  | succ n ih =>
    intro j h1 h2
    have hj : j < entries.length := by omega
    have hget : entries[j]? = some (entries.getD j []) := by
      rw [List.getElem?_eq_getElem hj, List.getD_eq_getElem entries [] hj]
    simp only [collectChunks, if_neg (by omega : ¬ 126 ≤ j), hget,
      List.range'_succ, List.map_cons]
    rw [ih (j + 1) (by omega) (by omega)]
    rfl

/-- `followSlots` is what `collectChunks` collects for a validated span. -/
theorem collectChunks_followSlots (entries : List (List Nat)) (i span : Nat)
    (h1 : 1 ≤ span) (h2 : span ≤ 126 - i) (h3 : i + span ≤ entries.length) :
    collectChunks entries (i + 1) (span - 1) = some (followSlots entries i span) := by
  unfold followSlots
  exact collectChunks_eq entries (span - 1) (i + 1) (by omega) (by omega)

/-- No successful `parseStep` produces an `ANY`-typed entry: the `ANY`
branch skips without materializing. -/
theorem parseStep_no_any (entries : List (List Nat)) (bitmap : List Nat)
    (ns : NsTable) (i : Nat) (en : NvsEntry)
    (h : (parseStep entries bitmap ns i).1 = some en) : en.type ≠ NvsType.ANY := by
  unfold parseStep at h
  repeat' split at h
  all_goals try simp_all [mkEntry]
  all_goals repeat' split at h
  all_goals try simp_all [mkEntry]
  all_goals (subst h; simp)

/-- No entry accumulated by the slot loop is `ANY`-typed. -/
theorem parseLoop_no_any (entries : List (List Nat)) (bitmap : List Nat) :
    ∀ fuel ns i en, en ∈ (parseLoop entries bitmap fuel ns i).1 →
      en.type ≠ NvsType.ANY := by
  intro fuel
  induction fuel with
  | zero => intro ns i en h; simp [parseLoop] at h
  | succ f ih =>
    intro ns i en h
    simp only [parseLoop] at h
    by_cases hi : i < 126
    · rw [if_pos hi] at h
      rcases List.mem_append.mp h with h1 | h2
      · rcases Option.mem_toList.mp h1 with hsome
        exact parseStep_no_any entries bitmap ns i en hsome
      · exact ih _ _ en h2
    · rw [if_neg hi] at h
      simp at h

/-- No entry accumulated by the page scan is `ANY`-typed. -/
theorem readPagesLoop_no_any (file : List Nat) :
    ∀ fuel ns pos en, en ∈ (readPagesLoop file fuel ns pos).1 →
      en.type ≠ NvsType.ANY := by
  intro fuel
  induction fuel with
  | zero => intro ns pos en h; simp [readPagesLoop] at h
  | succ f ih =>
    intro ns pos en h
    simp only [readPagesLoop] at h
    by_cases hp : pos < file.length
    · rw [if_pos hp] at h
      rcases List.mem_append.mp h with h1 | h2
      · unfold processPage at h1
        repeat' split at h1
        · simp at h1
        · simp at h1
        · simp at h1
        · exact parseLoop_no_any _ _ 126 ns 0 en h1
      · exact ih _ _ en h2
    · rw [if_neg hp] at h
      simp at h

/-- Two lists of key-value pairs that are permutations of each other, both
sorted by key, with no duplicate key, are equal. -/
theorem sorted_key_perm_nodup_eq {α : Type} :
    ∀ l1 l2 : List (Nat × α), l1.Perm l2 →
      l1.Pairwise keyLe → l2.Pairwise keyLe →
      (l1.map Prod.fst).Nodup → l1 = l2 := by
  intro l1
  induction l1 with
  | nil =>
    intro l2 hp _ _ _
    exact (hp.nil_eq).symm ▸ rfl
  | cons a t ih =>
    intro l2 hp hs1 hs2 hnd
    cases l2 with
    | nil => exact absurd hp.symm (by simp)
    | cons b t2 =>
      have hnd' : (a.1 :: t.map Prod.fst).Nodup := by simpa using hnd
      have hnd1 : a.1 ∉ t.map Prod.fst := (List.nodup_cons.mp hnd').1
      have hab : a = b := by
        by_contra hne
        have hbmem : b ∈ a :: t := hp.mem_iff.mpr (List.mem_cons_self b t2)
        have hamem : a ∈ b :: t2 := hp.mem_iff.mp (List.mem_cons_self a t)
        have hbt : b ∈ t := by
          rcases List.mem_cons.mp hbmem with h | h
          · exact absurd h.symm hne
          · exact h
        have hat2 : a ∈ t2 := by
          rcases List.mem_cons.mp hamem with h | h
          · exact absurd h hne
          · exact h
        have h1 : a.1 ≤ b.1 := (List.pairwise_cons.mp hs1).1 b hbt
        have h2 : b.1 ≤ a.1 := (List.pairwise_cons.mp hs2).1 a hat2
        exact hnd1 (List.mem_map.mpr ⟨b, hbt, by omega⟩)
      subst hab
      have ht : t = t2 :=
        ih t2 hp.cons_inv (List.pairwise_cons.mp hs1).2
          (List.pairwise_cons.mp hs2).2 (List.nodup_cons.mp hnd').2
      rw [ht]

/-- Insertion sort by key is insensitive to the input order when the keys
are pairwise distinct. -/
theorem insertionSort_key_eq_of_perm {α : Type} (l1 l2 : List (Nat × α))
    (hp : l1.Perm l2) (hnd : (l1.map Prod.fst).Nodup) :
    List.insertionSort keyLe l1 = List.insertionSort keyLe l2 := by
  apply sorted_key_perm_nodup_eq
  · exact (List.perm_insertionSort keyLe l1).trans
      (hp.trans (List.perm_insertionSort keyLe l2).symm)
  · exact List.sorted_insertionSort keyLe l1
  · exact List.sorted_insertionSort keyLe l2
  · exact hnd.perm ((List.perm_insertionSort keyLe l1).map Prod.fst).symm

/-- Dropping `BLOB_IDX` entries does not change which entries are
`BLOB_DATA`. -/
theorem filter_idx_blobdata (l : List NvsEntry) :
    (l.filter (fun e => !(e.type == NvsType.BLOB_IDX))).filter
        (fun e => e.type == NvsType.BLOB_DATA) =
      l.filter (fun e => e.type == NvsType.BLOB_DATA) := by
  induction l with
  | nil => rfl
  | cons a t ih =>
    by_cases h : a.type = NvsType.BLOB_IDX
    · simp [List.filter_cons, h, ih]
    · simp only [List.filter_cons]
      by_cases h2 : a.type = NvsType.BLOB_DATA <;> simp [h, h2, ih]

/-- Dropping `BLOB_IDX` entries does not change any blob key group. -/
theorem filter_idx_blobGroup (l : List NvsEntry) (k : String) :
    blobGroup (l.filter (fun e => !(e.type == NvsType.BLOB_IDX))) k =
      blobGroup l k := by
  induction l with
  | nil => rfl
  | cons a t ih =>
    by_cases h : a.type = NvsType.BLOB_IDX
    · simp [blobGroup, List.filter_cons, h, List.filterMap_cons] at ih ⊢
      simpa [h] using ih
    · simp only [blobGroup, List.filter_cons, List.filterMap_cons] at ih ⊢
      by_cases h2 : a.type = NvsType.BLOB_DATA ∧ a.key = k <;> simp [h, h2, ih]

/-- Dropping `BLOB_IDX` entries does not change the non-blob data rows
selection. -/
theorem filter_idx_nonblob (l : List NvsEntry) :
    (l.filter (fun e => !(e.type == NvsType.BLOB_IDX))).filter
        (fun e => !(e.type == NvsType.BLOB_DATA) && !(e.type == NvsType.BLOB_IDX)) =
      l.filter
        (fun e => !(e.type == NvsType.BLOB_DATA) && !(e.type == NvsType.BLOB_IDX)) := by
  induction l with
  | nil => rfl
  | cons a t ih =>
    by_cases h : a.type = NvsType.BLOB_IDX
    · simp [List.filter_cons, h, ih]
    · simp only [List.filter_cons]
      by_cases h2 : a.type = NvsType.BLOB_DATA <;> simp [h, h2, ih]

/-- The namespace grouping commutes with the `BLOB_IDX` filter. -/
theorem filter_idx_entriesForNs (l : List NvsEntry) (name : String) :
    entriesForNs (l.filter (fun e => !(e.type == NvsType.BLOB_IDX))) name =
      (entriesForNs l name).filter (fun e => !(e.type == NvsType.BLOB_IDX)) := by
  induction l with
  | nil => rfl
  | cons a t ih =>
    by_cases h : a.type = NvsType.BLOB_IDX <;>
      by_cases h2 : a.nsName = name <;>
      simp [entriesForNs, List.filter_cons, h, h2] at ih ⊢ <;>
      simpa [h, h2] using ih

/-- A namespace section never changes when `BLOB_IDX` entries are removed
from the record. -/
theorem nsSection_filter_idx (l : List NvsEntry) (name : String) :
    nsSection (l.filter (fun e => !(e.type == NvsType.BLOB_IDX))) name =
      nsSection l name := by
  simp only [nsSection, filter_idx_entriesForNs, filter_idx_blobdata,
    filter_idx_nonblob, filter_idx_blobGroup]

/-- `nsRowsOf` distributes over append. -/
theorem nsRowsOf_append (a b : List CsvRow) :
    nsRowsOf (a ++ b) = nsRowsOf a ++ nsRowsOf b := by
  simp [nsRowsOf]

/-- File rows contribute no namespace-row names. -/
theorem nsRowsOf_fileRows (g : String → Option (List Nat)) (ks : List String) :
    nsRowsOf (ks.map (fun k => CsvRow.fileRow k (g k))) = [] := by
  induction ks with
  | nil => rfl
  | cons a t ih => simp [nsRowsOf, List.filterMap_cons] at ih ⊢

/-- Data rows contribute no namespace-row names. -/
theorem nsRowsOf_dataRows (ds : List NvsEntry) :
    nsRowsOf (ds.map (fun e =>
      CsvRow.dataRow e.key (encStr (map_type_encoding e.type)) (pyStr e.value))) = [] := by
  induction ds with
  | nil => rfl
  | cons a t ih => simp [nsRowsOf, List.filterMap_cons] at ih ⊢

/-- Namespace-row names contributed by one section: exactly the section's
namespace name. -/
theorem nsRowsOf_nsSection (l : List NvsEntry) (name : String) :
    nsRowsOf (nsSection l name) = [name] := by
  unfold nsSection
  have hcons : ∀ rows, nsRowsOf (CsvRow.nsRow name :: rows) = name :: nsRowsOf rows := by
    intro rows; simp [nsRowsOf, List.filterMap_cons]
  rw [hcons, nsRowsOf_append,
    nsRowsOf_fileRows (fun k => reassembleBlob (blobGroup (entriesForNs l name) k)),
    nsRowsOf_dataRows]
  rfl

/-- The namespace rows of the generated CSV are the sorted table's names. -/
theorem nsRowsOf_generate_csv (m : List (Nat × String)) (e : List NvsEntry) :
    nsRowsOf (generate_csv m e) = (sortNamespaces m).map Prod.snd := by
  unfold generate_csv
  have : ∀ L : List (Nat × String),
      nsRowsOf (L.flatMap (fun p => nsSection e p.2)) = L.map Prod.snd := by
    intro L
    induction L with
    | nil => rfl
    | cons a t ih =>
      simp only [List.flatMap_cons, List.map_cons]
      unfold nsRowsOf at ih ⊢
      rw [List.filterMap_append]
      have := nsRowsOf_nsSection e a.2
      unfold nsRowsOf at this
      rw [this, ih]
      rfl
  unfold nsRowsOf at this ⊢
  simp only [List.filterMap_cons]
  exact this (sortNamespaces m)


/-! ### Claims -/

/-- C9: the entry-parsing loop terminates: every iteration advances the slot
index by at least 1 (by the validated span on success, by 1 on every skip or
exception path), so the loop over 126 slots completes within 126 iterations
and any fuel of at least 126 yields the same result as `parse_nvs_entries`. -/
theorem c9_theorem :
    (∀ (entries : List (List Nat)) (bitmap : List Nat) (ns : NsTable) (i : Nat),
      1 ≤ (parseStep entries bitmap ns i).2.2) ∧
    (∀ (entries : List (List Nat)) (bitmap : List Nat) (ns : NsTable) (f : Nat),
      126 ≤ f →
      parseLoop entries bitmap f ns 0 = parse_nvs_entries entries bitmap ns) := by
  constructor
  · exact parseStep_adv_pos
  · intro entries bitmap ns f hf
    unfold parse_nvs_entries
    exact parseLoop_stable entries bitmap f 126 ns 0 (by omega) (by omega)

/-- C9 witness: fuel 200 and the canonical fuel 126 agree on a concrete
input. -/
theorem c9_witness :
    (126 : Nat) ≤ 200 ∧
      parseLoop c2Entries c2Bitmap 200 [(0, "System")] 0 =
        parse_nvs_entries c2Entries c2Bitmap [(0, "System")] :=
  ⟨by decide, c9_theorem.2 c2Entries c2Bitmap [(0, "System")] 200 (by decide)⟩

/-- C4: a written slot whose span byte is 0 or exceeds the remaining slots of
the page is discarded: no entry is produced, exactly one slot is consumed,
and the loop continues with the rest of the page. -/
theorem c4_theorem (entries : List (List Nat)) (bitmap : List Nat)
    (ns : NsTable) (i : Nat) (slot : List Nat) (ensv tcode espan echunk f : Nat)
    (hb : bitmap[i]? = some 2) (hslot : entries[i]? = some slot)
    (h0 : slot[0]? = some ensv) (h1 : slot[1]? = some tcode)
    (h2 : slot[2]? = some espan) (h3 : slot[3]? = some echunk)
    (hspan : espan = 0 ∨ 126 - i < espan) :
    parseStep entries bitmap ns i = (none, ns, 1) ∧
    (i < 126 →
      parseLoop entries bitmap (f + 1) ns i = parseLoop entries bitmap f ns (i + 1)) := by
  have hstep : parseStep entries bitmap ns i = (none, ns, 1) := by
    simp only [parseStep, hb, hslot, h0, h1, h2, h3]
    cases hnv : nvs_types tcode with
    | none => simp
    | some t =>
      simp only []
      rw [if_pos trivial, if_pos (by omega : espan < 1 ∨ 126 - i < espan)]
  refine ⟨hstep, fun hi => ?_⟩
  simp only [parseLoop]
  rw [if_pos hi, hstep]
  simp

/-- C4 witness: a span-0 U8 slot at index 0 is discarded, one slot is
consumed, and the loop proceeds at index 1. -/
theorem c4_witness :
    parseStep c4Entries c4Bitmap [] 0 = (none, [], 1) ∧
    (0 < 126 →
      parseLoop c4Entries c4Bitmap 6 [] 0 = parseLoop c4Entries c4Bitmap 5 [] 1) :=
  c4_theorem c4Entries c4Bitmap [] 0 (mkSlot 1 0x01 0 0 [107] [7]) 1 0x01 0 0 5
    (by decide) (by decide) (by decide) (by decide) (by decide) (by decide)
    (Or.inl rfl)

/-- C5: a page whose header state is neither ACTIVE nor FULL, or whose
header or bitmap read fails, contributes no entries, leaves the namespace
table unchanged, and the scan continues at the next 4096-byte stride. -/
theorem c5_theorem (file : List Nat) (ns : NsTable) (pos f : Nat)
    (hpos : pos < file.length)
    (hskip : file.length < pos + 64 ∨
      (pageStateRaw file pos ≠ 0xFFFFFFFE ∧ pageStateRaw file pos ≠ 0xFFFFFFFC)) :
    processPage file ns pos = ([], ns) ∧
    readPagesLoop file (f + 1) ns pos = readPagesLoop file f ns (pos + 4096) := by
  have hpp : processPage file ns pos = ([], ns) := by
    unfold processPage
    by_cases ha : file.length < pos + 32
    · rw [if_pos ha]
    · rw [if_neg ha]
      by_cases hb : pageStateRaw file pos ≠ 0xFFFFFFFE ∧ pageStateRaw file pos ≠ 0xFFFFFFFC
      · rw [if_pos hb]
      · rw [if_neg hb]
        have h64 : file.length < pos + 64 := by
          rcases hskip with h | h
          · exact h
          · exact absurd h hb
        rw [if_pos h64]
  refine ⟨hpp, ?_⟩
  simp only [readPagesLoop]
  rw [if_pos hpos, hpp]
  simp

/-- C5 witness: a 65-byte file whose page 0 is EMPTY contributes nothing and
the scan steps to offset 4096. -/
theorem c5_witness :
    processPage c5File [(0, "System")] 0 = ([], [(0, "System")]) ∧
    readPagesLoop c5File 2 [(0, "System")] 0 = readPagesLoop c5File 1 [(0, "System")] 4096 :=
  c5_theorem c5File [(0, "System")] 0 1 (by decide) (Or.inr (by decide))

/-- C1 counterexample: a written STR slot with validated span 2 and declared
size 5000 (> 4032) produces no entry but advances the scan by 2 slots
(`i += entry_span`), not by 1 as the claim states. -/
theorem c1_counterexample :
    parseStep c1Entries c1Bitmap [] 0 = (none, [], 2) := by decide

/-- C1 (amended): a written STR/BLOB/BLOB_DATA slot with validated span
whose 2-byte declared size field exceeds 4032 produces no entry, and the
scan advances by exactly `span` slots - not by 1 as on the other
malformed-entry paths. -/
theorem c1_theorem (entries : List (List Nat)) (bitmap : List Nat)
    (ns : NsTable) (i : Nat) (slot : List Nat)
    (ensv tcode espan echunk size : Nat) (t : NvsType)
    (hb : bitmap[i]? = some 2) (hslot : entries[i]? = some slot)
    (h0 : slot[0]? = some ensv) (h1 : slot[1]? = some tcode)
    (h2 : slot[2]? = some espan) (h3 : slot[3]? = some echunk)
    (ht : nvs_types tcode = some t)
    (hT : t = NvsType.STR ∨ t = NvsType.BLOB ∨ t = NvsType.BLOB_DATA)
    (hsp1 : 1 ≤ espan) (hsp2 : espan ≤ 126 - i)
    (hsz : unpackU 2 (slot.drop 24) = some size) (hbig : 4032 < size) :
    parseStep entries bitmap ns i = (none, ns, espan) := by
  rcases hT with h | h | h <;> subst h <;>
    simp only [parseStep, hb, hslot, h0, h1, h2, h3, ht, hsz] <;>
    rw [if_pos trivial, if_neg (by omega : ¬(espan < 1 ∨ 126 - i < espan)),
      if_pos hbig]

/-- C1 witness: the amended statement applies to the concrete oversized STR
slot. -/
theorem c1_witness :
    parseStep c1Entries c1Bitmap [] 0 = (none, [], 2) :=
  c1_theorem c1Entries c1Bitmap [] 0 (mkSlot 1 0x21 2 0 [107] [0x88, 0x13])
    1 0x21 2 0 5000 NvsType.STR
    (by decide) (by decide) (by decide) (by decide) (by decide) (by decide)
    (by decide) (Or.inl rfl) (by decide) (by decide) (by decide) (by decide)

/-- C3: a written STR/BLOB/BLOB_DATA slot with valid span and declared size
at most 4032 decodes to the concatenation of the payload region at offset 32
of the header slot with the span-1 following raw slots taken whole,
truncated to exactly the first `size` bytes, decoded as permissive ASCII for
STR and as lowercase hex for BLOB/BLOB_DATA, and the scan advances by span. -/
theorem c3_theorem (entries : List (List Nat)) (bitmap : List Nat)
    (ns : NsTable) (i : Nat) (slot : List Nat)
    (ensv tcode espan echunk size : Nat) (t : NvsType)
    (hb : bitmap[i]? = some 2) (hslot : entries[i]? = some slot)
    (h0 : slot[0]? = some ensv) (h1 : slot[1]? = some tcode)
    (h2 : slot[2]? = some espan) (h3 : slot[3]? = some echunk)
    (ht : nvs_types tcode = some t)
    (hT : t = NvsType.STR ∨ t = NvsType.BLOB ∨ t = NvsType.BLOB_DATA)
    (hsp1 : 1 ≤ espan) (hsp2 : espan ≤ 126 - i)
    (hsz : unpackU 2 (slot.drop 24) = some size) (hsmall : size ≤ 4032)
    (hlen : i + espan ≤ entries.length) :
    parseStep entries bitmap ns i =
      (some (mkEntry (asciiIgnore (rstrip0 (pySlice slot 8 24))) t
        ((nsGet ns ensv).getD ("NS_" ++ toString ensv)) espan echunk
        (NvsValue.strVal (if t = NvsType.STR
          then asciiIgnore ((slot.drop 32 ++ (followSlots entries i espan).flatten).take size)
          else hexLower ((slot.drop 32 ++ (followSlots entries i espan).flatten).take size)))
        (some size)), ns, espan) := by
  have hcc := collectChunks_followSlots entries i espan hsp1 hsp2 hlen
  rcases hT with h | h | h <;> subst h <;>
    simp only [parseStep, hb, hslot, h0, h1, h2, h3, ht, hsz, hcc,
      List.drop_drop] <;>
    rw [if_pos trivial, if_neg (by omega : ¬(espan < 1 ∨ 126 - i < espan)),
      if_neg (by omega : ¬(4032 < size))]

/-- C3 witness: the concrete span-2 STR slot with declared size 2 reassembles
32 continuation bytes and truncates them to the 2 bytes "hi". -/
theorem c3_witness :
    parseStep c3Entries c3Bitmap [] 0 =
      (some (mkEntry "greeting" NvsType.STR "NS_5" 2 0
        (NvsValue.strVal "hi") (some 2)), [], 2) :=
  (c3_theorem c3Entries c3Bitmap [] 0
      (mkSlot 5 0x21 2 0 [103, 114, 101, 101, 116, 105, 110, 103] [2, 0])
      5 0x21 2 0 2 NvsType.STR
      (by decide) (by decide) (by decide) (by decide) (by decide) (by decide)
      (by decide) (Or.inl rfl) (by decide) (by decide) (by decide) (by decide)
      (by decide)).trans (by decide)

set_option maxRecDepth 40000 in
/-- C2: the namespace name attached to an entry is the one the namespace
table holds at the moment the slot is parsed - the registered name when the
slot's namespace id is present, the fallback `NS_<id>` otherwise - and, as
the concrete page shows, an entry referencing namespace 5 before the U8
definition of id 5 keeps `NS_5` in the final result while one parsed after
it gets the defined name: later definitions never rename earlier entries. -/
theorem c2_theorem :
    (∀ (entries : List (List Nat)) (bitmap : List Nat) (ns : NsTable) (i : Nat)
      (en : NvsEntry) (ns2 : NsTable) (adv : Nat) (slot : List Nat) (ensv : Nat),
      parseStep entries bitmap ns i = (some en, ns2, adv) →
      entries[i]? = some slot → slot[0]? = some ensv →
      en.nsName = (nsGet ns ensv).getD ("NS_" ++ toString ensv)) ∧
    (parse_nvs_entries c2Entries c2Bitmap [(0, "System")]).1.map NvsEntry.nsName
      = ["NS_5", "System", "cfg"] := by
  constructor
  · intro entries bitmap ns i en ns2 adv slot ensv hstep hslot h0
    unfold parseStep at hstep
    repeat' split at hstep
    all_goals try simp_all [mkEntry]
    all_goals repeat' split at hstep
    all_goals try simp_all [mkEntry]
    all_goals try (obtain ⟨hrec, hns2, hadv⟩ := hstep)
    all_goals try subst hns2
    all_goals try subst hrec
    all_goals rfl
  · decide

set_option maxRecDepth 40000 in
/-- C2 witness: the first slot of the concrete page resolves its name from
the table state at its parse moment. -/
theorem c2_witness :
    (⟨"a", NvsType.U8, "NS_5", 1, 0, NvsValue.intVal 7, none⟩ : NvsEntry).nsName
      = (nsGet [(0, "System")] 5).getD ("NS_" ++ toString 5) :=
  c2_theorem.1 c2Entries c2Bitmap [(0, "System")] 0
    ⟨"a", NvsType.U8, "NS_5", 1, 0, NvsValue.intVal 7, none⟩ [(0, "System")] 1
    (mkSlot 5 0x01 1 0 [97] [7]) 5 (by decide) (by decide) (by decide)

/-- C6: the blob bytes written for a key group are the concatenation of the
group's chunk values sorted ascending by chunk index, so for groups with
pairwise distinct chunk indices the reassembled payload does not depend on
the order in which the chunks appear in the structured record. -/
theorem c6_theorem (l1 l2 : List (Nat × NvsValue)) (hp : l1.Perm l2)
    (hnd : (l1.map Prod.fst).Nodup) :
    reassembleBlob l1 = reassembleBlob l2 := by
  unfold reassembleBlob
  rw [insertionSort_key_eq_of_perm l1 l2 hp hnd]

/-- C6 witness: the chunks (1,"BB"),(0,"AA") reassemble to the bytes
`AABB` regardless of their order in the record. -/
theorem c6_witness :
    reassembleBlob [(1, NvsValue.strVal "BB"), (0, NvsValue.strVal "AA")] =
      reassembleBlob [(0, NvsValue.strVal "AA"), (1, NvsValue.strVal "BB")] ∧
    reassembleBlob [(1, NvsValue.strVal "BB"), (0, NvsValue.strVal "AA")] =
      some [0xAA, 0xBB] :=
  ⟨c6_theorem _ _ (List.Perm.swap _ _ _) (by decide), by decide⟩

/-- C7: the CSV namespace rows are exactly the record's namespace names
sorted ascending by numeric id; permuting the namespace table (distinct
ids) or exchanging the entry list changes no namespace row. -/
theorem c7_theorem (m1 m2 : List (Nat × String)) (e1 e2 : List NvsEntry)
    (hp : m1.Perm m2) (hnd : (m1.map Prod.fst).Nodup) :
    nsRowsOf (generate_csv m1 e1) = nsRowsOf (generate_csv m2 e2) ∧
    nsRowsOf (generate_csv m1 e1) = (sortNamespaces m1).map Prod.snd ∧
    List.Pairwise (fun a b => a ≤ b) ((sortNamespaces m1).map Prod.fst) := by
  refine ⟨?_, nsRowsOf_generate_csv m1 e1, ?_⟩
  · rw [nsRowsOf_generate_csv, nsRowsOf_generate_csv]
    unfold sortNamespaces
    rw [insertionSort_key_eq_of_perm m1 m2 hp hnd]
  · have hs : (sortNamespaces m1).Pairwise keyLe :=
      List.sorted_insertionSort keyLe m1
    exact List.Pairwise.map Prod.fst (fun a b h => h) hs

/-- C7 witness: the namespace rows of a concrete two-namespace record are
ascending by id regardless of the table's stored order. -/
theorem c7_witness :
    nsRowsOf (generate_csv [(2, "beta"), (0, "System")] c10Entries) =
      nsRowsOf (generate_csv [(0, "System"), (2, "beta")] []) ∧
    nsRowsOf (generate_csv [(2, "beta"), (0, "System")] c10Entries) =
      (sortNamespaces [(2, "beta"), (0, "System")]).map Prod.snd ∧
    List.Pairwise (fun a b => a ≤ b)
      ((sortNamespaces [(2, "beta"), (0, "System")]).map Prod.fst) :=
  c7_theorem [(2, "beta"), (0, "System")] [(0, "System"), (2, "beta")]
    c10Entries [] (List.Perm.swap _ _ _) (by decide)

set_option maxRecDepth 40000 in
/-- C8: no `ANY`-typed (0xFF) slot ever appears in the structured record;
`BLOB_IDX` entries can appear in the structured record (the concrete
BLOB_IDX slot decodes to one) but removing every `BLOB_IDX` entry from a
record leaves the generated CSV unchanged, so they never produce a row. -/
theorem c8_theorem :
    (∀ (file : List Nat) (en : NvsEntry), en ∈ (read_nvs_pages file).1 →
      en.type ≠ NvsType.ANY) ∧
    (∀ (m : List (Nat × String)) (e : List NvsEntry),
      generate_csv m e =
        generate_csv m (e.filter (fun en => !(en.type == NvsType.BLOB_IDX)))) ∧
    (parse_nvs_entries c8Slots c8Bitmap []).1.map NvsEntry.type
      = [NvsType.BLOB_IDX] := by
  refine ⟨?_, ?_, by decide⟩
  · intro file en h
    unfold read_nvs_pages at h
    exact readPagesLoop_no_any file _ _ _ en h
  · intro m e
    unfold generate_csv
    simp only [nsSection_filter_idx]

set_option maxRecDepth 100000 in
/-- C8 witness: the concrete one-page file decodes to a `BLOB_IDX` entry in
the structured record, and that entry is not `ANY`-typed. -/
theorem c8_witness :
    c8Entry ∈ (read_nvs_pages c8File).1 ∧ c8Entry.type ≠ NvsType.ANY :=
  ⟨by decide, c8_theorem.1 c8File c8Entry (by decide)⟩

/-- C10 counterexample: a structured record holding a STR entry whose
namespace name ("Foo") is not a name in the namespace table produces no data
row at all - the generated CSV is just the header and the "System"
namespace row - so not every STR entry gets a data row. -/
theorem c10_counterexample :
    c10Entries.map NvsEntry.type = [NvsType.STR] ∧
    generate_csv c10Map c10Entries = [CsvRow.header, CsvRow.nsRow "System"] := by
  constructor
  · decide
  · decide

/-- C10 (amended): every STR or BLOB entry whose namespace name is held by
the record's namespace table yields a data row whose encoding field is the
literal text "None", STR and BLOB being absent from the type-to-encoding
mapping. -/
theorem c10_theorem (m : List (Nat × String)) (e : List NvsEntry)
    (en : NvsEntry) (hmem : en ∈ e)
    (ht : en.type = NvsType.STR ∨ en.type = NvsType.BLOB)
    (hns : ∃ p, p ∈ m ∧ p.2 = en.nsName) :
    CsvRow.dataRow en.key "None" (pyStr en.value) ∈ generate_csv m e := by
  obtain ⟨p, hpm, hpname⟩ := hns
  unfold generate_csv
  apply List.mem_cons_of_mem
  apply List.mem_flatMap.mpr
  refine ⟨p, ?_, ?_⟩
  · unfold sortNamespaces
    exact (List.perm_insertionSort keyLe m).mem_iff.mpr hpm
  · simp only [nsSection, entriesForNs]
    apply List.mem_cons_of_mem
    apply List.mem_append_right
    apply List.mem_map.mpr
    refine ⟨en, ?_, ?_⟩
    · apply List.mem_filter.mpr
      refine ⟨List.mem_filter.mpr ⟨hmem, by simp [hpname]⟩, ?_⟩
      rcases ht with h | h <;> simp [h]
    · rcases ht with h | h <;> simp [h, encStr, map_type_encoding]

/-- C10 witness: the amended statement applies to a concrete record whose
namespace table holds the entry's namespace name. -/
theorem c10_witness :
    CsvRow.dataRow "greeting" "None" "hi" ∈ generate_csv c10wMap c10wEntries := by
  have h := c10_theorem c10wMap c10wEntries
    ⟨"greeting", NvsType.STR, "Foo", 1, 0, NvsValue.strVal "hi", some 2⟩
    (by decide) (Or.inl rfl) ⟨(1, "Foo"), by decide, rfl⟩
  simpa using h
